import Mathlib

/-!
# GrabZilla — verification of the queue / download-session core

Shallow embedding of the GrabZilla video-downloader repository
(main.py and src/ui/main_window.py together with src/core/utils.py,
src/core/video.py).  Pure helpers are translated as Lean functions;
the stateful queue and download-session logic is translated as
explicit state passing.  Statuses are modelled as a closed inductive
type whose display text mirrors the strings the code writes into the
status column of the list view.  Event delivery (wx.PostEvent /
wx.CallAfter) is modelled as immediate: the status an item holds is
the final status its worker posted.
-/

set_option maxHeartbeats 1000000

/-- Per-item status, mirroring the strings the code writes into
column 3 of the list view (src/ui/main_window.py).  A freshly
inserted row has empty status text; progress events write the parsed
percentage text. -/
inductive ItemStatus where
  | empty
  | ready
  | metaError
  | preparing
  | progress (pct : String)
  | downloaded
  | alreadyDownloaded
  | failed
  | cancelled
deriving DecidableEq, Repr

/-- The text the code writes into the status column for each status
(src/ui/main_window.py lines 399, 413, 421, 430, 436, 576, 602, 639). -/
def statusText : ItemStatus → String
  | .empty => ""
  | .ready => "Ready"
  | .metaError => "Error"
  | .preparing => "Preparing..."
  | .progress pct => pct ++ "%"
  | .downloaded => "Downloaded"
  | .alreadyDownloaded => "Already Downloaded"
  | .failed => "Failed"
  | .cancelled => "Cancelled"

/-- Terminal statuses: the four statuses from which a download worker
never moves an item again. -/
def isTerminal : ItemStatus → Bool
  | .downloaded => true
  | .alreadyDownloaded => true
  | .failed => true
  | .cancelled => true
  | _ => false

/-! ## Filename sanitisation (src/core/utils.py clean_filename,
and the inline re.sub in _download_video, main_window.py line 594) -/

/-- The character class of the regex [\\/*?:"<>|]. -/
def badChars : List Char := ['\\', '/', '*', '?', ':', '\"', '<', '>', '|']

/-- One step of re.sub with a single-character class: a character that
matches the class is replaced by an underscore, any other character is
copied. -/
def cleanChar (c : Char) : Char :=
  if c ∈ badChars then '_' else c

/-- re.sub(r'[\\/*?:"<>|]', '_', s) scans the string left to right,
each match is a single character, replaced by a single underscore. -/
def cleanChars : List Char → List Char
  | [] => []
  | c :: cs => cleanChar c :: cleanChars cs

/-- clean_filename from src/core/utils.py. -/
def clean_filename (s : String) : String :=
  ⟨cleanChars s.data⟩

/-! ## URL validation (src/core/video.py is_valid_link) -/

/-- The platform alternation of the validation regex, in source order. -/
def platforms : List String :=
  ["youtube", "youtu.be", "vimeo", "dailymotion", "facebook", "twitter", "instagram"]

/-- The platform group of the regex: one of the alternatives must match
at the current position; the trailing .* of the pattern matches any
remainder, so only the alternative itself is constrained. -/
def matchPlatform (s : List Char) : Bool :=
  platforms.any (fun p => p.data.isPrefixOf s)

/-- The optional (www\.)? group followed by the platform group: with
backtracking, either www. is consumed and the platform group matches
after it, or the platform group matches directly. -/
def matchHost (s : List Char) : Bool :=
  ("www.".data.isPrefixOf s && matchPlatform (s.drop 4)) || matchPlatform s

/-- is_valid_link from src/core/video.py: re.match of the raw pattern
^https?://(www\.)?(youtube|youtu\.be|vimeo|dailymotion|facebook|twitter|instagram).*
against the link.  The anchored ^https?:// is the two alternatives
https:// and http://. -/
def is_valid_link (link : String) : Bool :=
  ("https://".data.isPrefixOf link.data && matchHost (link.data.drop 8)) ||
  ("http://".data.isPrefixOf link.data && matchHost (link.data.drop 7))

/-! ## Queue (src/ui/main_window.py on_add_video / _is_url_in_queue) -/

/-- _is_url_in_queue: any(video.url == url for video in self.videos),
over the queue projected to its url field. -/
def is_url_in_queue (videos : List String) (url : String) : Bool :=
  videos.any (fun v => v == url)

/-- One iteration of the on_add_video loop for a stripped link:
if link and not self._is_url_in_queue(link): if is_valid_link(link):
append, else an error dialog leaves the queue unchanged. -/
def addLink (videos : List String) (link : String) : List String :=
  if !(link == "") && !(is_url_in_queue videos link) then
    if is_valid_link link then videos ++ [link] else videos
  else videos

/-! ## Download worker (src/ui/main_window.py _download_video)

One worker thread runs _download_video for one queue item.  Its
interactions with the outside world (the stored metadata title, the
fallback yt-dlp title fetch, the file system, the cancellation flag as
observed while reading progress lines, the exit code of the external
process, and any exception raised while spawning or reading) are the
fields of WorkerEnv; the worker itself is the pure function
downloadVideoRun over that environment. -/

structure WorkerEnv where
  /-- videos[index].title at the time the worker runs ("" if metadata
  never resolved). -/
  storedTitle : String
  /-- Outcome of the fallback fetch_video_metadata call: ok title, or
  error text. -/
  fallbackTitle : Except String String
  /-- self.audio_only.GetValue(). -/
  audioOnly : Bool
  /-- self.save_path. -/
  savePath : String
  /-- Paths that exist on disk when the worker runs. -/
  existingFiles : List String
  /-- Whether self.cancel_requested is observed true at some progress
  line while reading the process output. -/
  cancelSeen : Bool
  /-- Exit code of the external download process. -/
  exitCode : Int
  /-- Whether an exception is raised while spawning or reading the
  process (caught by the worker and converted to a failure event). -/
  raises : Bool
deriving Repr

/-- Title resolution at the top of _download_video: use
video_info.title if non-empty, else the fallback metadata fetch; a
fallback error is a per-item failure. -/
def resolveTitle (env : WorkerEnv) : Except String String :=
  if env.storedTitle == "" then env.fallbackTitle else Except.ok env.storedTitle

/-- os.path.join(save_path, title + extension) with the extension
chosen by the audio-only mode (".mp3" if audio_only else ".mp4");
the separator is modelled as "/". -/
def outputPath (env : WorkerEnv) (title : String) : String :=
  env.savePath ++ "/" ++ clean_filename title ++ (if env.audioOnly then ".mp3" else ".mp4")

/-- What one run of a download worker produces: the final status it
posts for its item, whether it invoked the external Download Executor
(subprocess.Popen), and the file system afterwards. -/
structure WorkerOutcome where
  status : ItemStatus
  invokedExecutor : Bool
  files : List String
deriving Repr

/-- _download_video (src/ui/main_window.py lines 573-669) as a pure
function of the worker environment.  Path order follows the source:
title resolution (fallback error posts a failure event), filename
sanitisation, extension choice, existence check (Already Downloaded,
executor never invoked), then the executor: an exception while
spawning or reading is caught and posted as a failure, a cancellation
observed at a progress line terminates the process and leaves the
item Cancelled, exit code 0 is Downloaded (the output file now
exists), any other exit code is Failed. -/
def downloadVideoRun (env : WorkerEnv) : WorkerOutcome :=
  match resolveTitle env with
  | Except.error _ => ⟨.failed, false, env.existingFiles⟩
  | Except.ok title =>
    let path := outputPath env title
    if path ∈ env.existingFiles then
      ⟨.alreadyDownloaded, false, env.existingFiles⟩
    else if env.raises then
      ⟨.failed, true, env.existingFiles⟩
    else if env.cancelSeen then
      ⟨.cancelled, true, env.existingFiles⟩
    else if env.exitCode == 0 then
      ⟨.downloaded, true, path :: env.existingFiles⟩
    else
      ⟨.failed, true, env.existingFiles⟩

/-! ## Session state (src/ui/main_window.py VideoDownloaderFrame)

The mutable frame state that the download-session logic touches:
the downloading flag (Idle / Running), the cancellation flag, the
queue of urls with their current statuses, the save path, the file
system, and the spawned worker threads (download_threads), modelled
by the indices of the items they were started for. -/

structure AppState where
  downloading : Bool
  cancelRequested : Bool
  videos : List String
  rowStatus : List ItemStatus
  savePath : String
  fs : List String
  downloadWorkers : List Nat
deriving Repr

/-- Session-level errors of on_download_videos, each reported through
a dialog and aborting the call. -/
inductive StartError where
  | alreadyRunning
  | emptyQueue
  | dirError
deriving DecidableEq, Repr

/-- on_download_videos (src/ui/main_window.py lines 337-369): reject
if already downloading, reject if the queue is empty, create the save
directory if missing and reject if creation fails; otherwise set
downloading, reset the thread list and the cancel flag, and spawn one
worker per queue item.  canCreateDir says whether os.makedirs would
succeed when the directory is missing. -/
def on_download_videos (st : AppState) (canCreateDir : Bool) :
    Option StartError × AppState :=
  if st.downloading then
    (some .alreadyRunning, st)
  else if st.videos.length == 0 then
    (some .emptyQueue, st)
  else if !(st.savePath ∈ st.fs) && !canCreateDir then
    (some .dirError, st)
  else
    let fs' := if st.savePath ∈ st.fs then st.fs else st.savePath :: st.fs
    (none,
      { st with
        downloading := true
        cancelRequested := false
        fs := fs'
        downloadWorkers := List.range st.videos.length })

/-- on_cancel_downloads (src/ui/main_window.py lines 671-695, the
effective definition): a no-op unless downloading; otherwise set the
cancellation flag, terminate the active processes, join every
download thread — after the joins each spawned worker has finished
and its item carries the final status that worker posted — and clear
the downloading flag.  envs lists, for each spawned worker, the
environment that worker actually experienced (whether it observed the
cancellation flag is part of that environment). -/
def on_cancel_downloads (st : AppState) (envs : List WorkerEnv) : AppState :=
  if !st.downloading then st
  else
    { st with
      downloading := false
      cancelRequested := true
      rowStatus := envs.map (fun e => (downloadVideoRun e).status) }

/-! ## Batch summary (src/ui/main_window.py _on_downloads_complete) -/

/-- One step of the counting loop: the code compares the status text
of each row; "Downloaded" increments the success count, "Failed" or
"Error" increments the failure count, anything else is not counted. -/
def tallyStep (acc : Nat × Nat) (s : ItemStatus) : Nat × Nat :=
  if statusText s == "Downloaded" then (acc.1 + 1, acc.2)
  else if statusText s == "Failed" || statusText s == "Error" then (acc.1, acc.2 + 1)
  else acc

/-- The (success_count, failed_count) tally of _on_downloads_complete
(src/ui/main_window.py lines 753-761). -/
def tallyCounts (statuses : List ItemStatus) : Nat × Nat :=
  statuses.foldl tallyStep (0, 0)

/-- The success count as the claim states it: Downloaded together
with AlreadyDownloaded.  Stated from the words of the claim, for
comparison with the tally the code computes. -/
def claimedSuccessCount (statuses : List ItemStatus) : Nat :=
  (statuses.filter (fun s => s == .downloaded || s == .alreadyDownloaded)).length

/-! ## Queue reorder (main.py move_item_up / move_item_down)

main.py keeps the queue in two places: self.videos (the VideoInfo
records) and the rows of the list view (thumbnail image in column 0,
title, duration and status texts in columns 1-3, a background colour,
and constant action icons in columns 4-6, which the move operations
rewrite with the same constant values and which are therefore not
modelled).  A move swaps the two VideoInfo records wholesale, then
reads title, duration, status and background colour of the two rows
and writes them back crosswise; the column-0 image of each row is not
touched. -/

/-- The VideoInfo record of main.py (url, metadata, status). -/
structure VideoRec where
  url : String
  title : String
  duration : Nat
  thumbnail_url : String
  thumbnail_path : String
  status : String
deriving DecidableEq, Repr

/-- One row of the list view: the column-0 thumbnail image index, the
three text columns the move operations read and write, and the row
background colour. -/
structure RowData where
  thumb : Nat
  title : String
  duration : String
  status : String
  bgcolor : Nat
deriving DecidableEq, Repr

/-- The row written at the position of keep: it keeps its column-0
thumbnail image, and receives title, duration, status and background
colour from give (the crosswise SetItem / SetItemBackgroundColour
calls of move_item_up and move_item_down). -/
def rowReceiving (keep give : RowData) : RowData :=
  { thumb := keep.thumb
    title := give.title
    duration := give.duration
    status := give.status
    bgcolor := give.bgcolor }

/-- self.videos[i], self.videos[j] = self.videos[j], self.videos[i]
as a total list operation (identity when an index is out of range). -/
def swapIdx {α : Type} (l : List α) (i j : Nat) : List α :=
  match l.get? i, l.get? j with
  | some a, some b => (l.set i b).set j a
  | _, _ => l

/-- The list-view part of move_item_up at position item: data[0] is
row item-1, data[1] is row item; row item-1 receives the fields of
data[1] and row item receives the fields of data[0]; the column-0
images stay where they are. -/
def moveUpRows (rows : List RowData) (item : Nat) : List RowData :=
  match rows.get? (item - 1), rows.get? item with
  | some r0, some r1 =>
    (rows.set (item - 1) (rowReceiving r0 r1)).set item (rowReceiving r1 r0)
  | _, _ => rows

/-- The list-view part of move_item_down at position item: data[0] is
row item, data[1] is row item+1; crosswise writes as in moveUpRows. -/
def moveDownRows (rows : List RowData) (item : Nat) : List RowData :=
  match rows.get? item, rows.get? (item + 1) with
  | some r0, some r1 =>
    (rows.set item (rowReceiving r0 r1)).set (item + 1) (rowReceiving r1 r0)
  | _, _ => rows

/-- The queue state of main.py that the move operations touch. -/
structure QueueState where
  videos : List VideoRec
  rows : List RowData
deriving DecidableEq, Repr

/-- move_item_up (main.py lines 353-396).  The source guard is
item > 0; an index at or beyond the row count would raise in Python,
so the operation is modelled only inside the bounds (identity
otherwise). -/
def move_item_up (st : QueueState) (item : Nat) : QueueState :=
  if 0 < item ∧ item < st.rows.length then
    { videos := swapIdx st.videos item (item - 1)
      rows := moveUpRows st.rows item }
  else st

/-- move_item_down (main.py lines 398-441).  The source guard is
item < self.list_view.GetItemCount() - 1. -/
def move_item_down (st : QueueState) (item : Nat) : QueueState :=
  if item + 1 < st.rows.length then
    { videos := swapIdx st.videos item (item + 1)
      rows := moveDownRows st.rows item }
  else st

/-! # Theorems -/

/-! ## Filename sanitisation (C8, C9) -/

lemma cleanChars_length (l : List Char) : (cleanChars l).length = l.length := by
  induction l with
  | nil => rfl
  | cons c cs ih => simp [cleanChars, ih]

lemma cleanChars_getD (l : List Char) (i : Nat) :
    (cleanChars l).getD i ' ' = cleanChar (l.getD i ' ') := by
  induction l generalizing i with
  | nil =>
    simp [cleanChars]
    decide
  | cons c cs ih =>
    cases i with
    | zero => simp [cleanChars]
    | succ n => exact ih n

lemma cleanChar_eq_ite (c : Char) :
    cleanChar c =
      (if c = '\\' ∨ c = '/' ∨ c = '*' ∨ c = '?' ∨ c = ':' ∨ c = '\"' ∨
          c = '<' ∨ c = '>' ∨ c = '|'
       then '_' else c) := by
  simp [cleanChar, badChars]

lemma cleanChar_idem (c : Char) : cleanChar (cleanChar c) = cleanChar c := by
  unfold cleanChar
  by_cases h : c ∈ badChars
  · simp [h]
  · simp [h]

lemma cleanChar_not_bad (c : Char) : cleanChar c ∉ badChars := by
  unfold cleanChar
  by_cases h : c ∈ badChars
  · simp [h]
    decide
  · simp [h]

lemma cleanChars_idem (l : List Char) : cleanChars (cleanChars l) = cleanChars l := by
  induction l with
  | nil => rfl
  | cons c cs ih => simp [cleanChars, cleanChar_idem, ih]

lemma mem_cleanChars_not_bad (l : List Char) (c : Char) (h : c ∈ cleanChars l) :
    c ∉ badChars := by
  induction l with
  | nil => cases h
  | cons x xs ih =>
    rcases List.mem_cons.mp h with h1 | h2
    · rw [h1]
      exact cleanChar_not_bad x
    · exact ih h2

/-- Claim C8: the filename sanitizer replaces every occurrence of each of
the nine characters backslash / * ? : quote < > | with the underscore and
leaves every other character of the string unchanged, preserving length
and the order of all characters. -/
theorem clean_filename_replaces_chars (s : String) (i : Nat) (h : i < s.data.length) :
    (clean_filename s).length = s.length ∧
    (clean_filename s).data.getD i ' ' =
      (if s.data.getD i ' ' = '\\' ∨ s.data.getD i ' ' = '/' ∨ s.data.getD i ' ' = '*' ∨
          s.data.getD i ' ' = '?' ∨ s.data.getD i ' ' = ':' ∨ s.data.getD i ' ' = '\"' ∨
          s.data.getD i ' ' = '<' ∨ s.data.getD i ' ' = '>' ∨ s.data.getD i ' ' = '|'
       then '_' else s.data.getD i ' ') := by
  constructor
  · show (cleanChars s.data).length = s.data.length
    exact cleanChars_length s.data
  · show (cleanChars s.data).getD i ' ' = _
    rw [cleanChars_getD, cleanChar_eq_ite]

/-- Witness for C8 on the concrete string "a:b" at index 1 (the colon,
replaced by an underscore). -/
theorem clean_filename_replaces_chars_witness :
    1 < ("a:b" : String).data.length ∧
    ((clean_filename "a:b").length = ("a:b" : String).length ∧
      (clean_filename "a:b").data.getD 1 ' ' =
        (if ("a:b" : String).data.getD 1 ' ' = '\\' ∨ ("a:b" : String).data.getD 1 ' ' = '/' ∨
            ("a:b" : String).data.getD 1 ' ' = '*' ∨ ("a:b" : String).data.getD 1 ' ' = '?' ∨
            ("a:b" : String).data.getD 1 ' ' = ':' ∨ ("a:b" : String).data.getD 1 ' ' = '\"' ∨
            ("a:b" : String).data.getD 1 ' ' = '<' ∨ ("a:b" : String).data.getD 1 ' ' = '>' ∨
            ("a:b" : String).data.getD 1 ' ' = '|'
         then '_' else ("a:b" : String).data.getD 1 ' ')) :=
  ⟨by decide, clean_filename_replaces_chars "a:b" 1 (by decide)⟩

/-- Claim C9: clean_filename is idempotent, and its output never contains
any of the nine replaced characters — the replacement character is not
itself in the replaced set. -/
theorem clean_filename_idempotent (s : String) (c : Char)
    (hc : c ∈ (clean_filename s).data) :
    clean_filename (clean_filename s) = clean_filename s ∧
    c ∉ badChars ∧ '_' ∉ badChars := by
  refine ⟨?_, ?_, by decide⟩
  · show String.mk (cleanChars (cleanChars s.data)) = String.mk (cleanChars s.data)
    rw [cleanChars_idem]
  · exact mem_cleanChars_not_bad s.data c hc

/-- Witness for C9 on the concrete string "a:b", whose sanitised form
contains the underscore. -/
theorem clean_filename_idempotent_witness :
    '_' ∈ (clean_filename "a:b").data ∧
    (clean_filename (clean_filename "a:b") = clean_filename "a:b" ∧
      '_' ∉ badChars ∧ '_' ∉ badChars) :=
  ⟨by decide, clean_filename_idempotent "a:b" '_' (by decide)⟩

/-! ## Batch summary (C5) -/

/-- Claim C5: an item whose terminal status is Cancelled contributes to
neither the success count nor the failure count of the batch summary,
and Cancelled is distinct from Failed. -/
theorem cancelled_not_counted (l1 l2 : List ItemStatus) :
    tallyCounts (l1 ++ ItemStatus.cancelled :: l2) = tallyCounts (l1 ++ l2) ∧
    ItemStatus.cancelled ≠ ItemStatus.failed := by
  constructor
  · unfold tallyCounts
    rw [List.foldl_append, List.foldl_append, List.foldl_cons]
    have hstep : tallyStep (List.foldl tallyStep (0, 0) l1) ItemStatus.cancelled =
        List.foldl tallyStep (0, 0) l1 := rfl
    rw [hstep]
  · intro h
    cases h

/-! ## Idempotent re-download (C3) -/

/-- Claim C3: a worker whose computed destination file (sanitised title
plus the extension chosen by the audio-only mode) already exists marks
the item Already Downloaded, returns without invoking the Download
Executor, and leaves the file system unchanged. -/
theorem existing_output_skips_executor (env : WorkerEnv) (t : String)
    (ht : resolveTitle env = Except.ok t)
    (hex : outputPath env t ∈ env.existingFiles) :
    downloadVideoRun env =
      ⟨ItemStatus.alreadyDownloaded, false, env.existingFiles⟩ := by
  unfold downloadVideoRun
  rw [ht]
  simp [hex]

/-- Witness for C3: a worker whose stored title resolves to a file that
already exists in the save directory. -/
theorem existing_output_skips_executor_witness :
    resolveTitle ⟨"Video", Except.error "e", false, "save", ["save/Video.mp4"], false, 0, false⟩ =
      Except.ok "Video" ∧
    outputPath ⟨"Video", Except.error "e", false, "save", ["save/Video.mp4"], false, 0, false⟩ "Video" ∈
      (["save/Video.mp4"] : List String) ∧
    downloadVideoRun ⟨"Video", Except.error "e", false, "save", ["save/Video.mp4"], false, 0, false⟩ =
      ⟨ItemStatus.alreadyDownloaded, false, ["save/Video.mp4"]⟩ :=
  ⟨rfl, by decide,
    existing_output_skips_executor _ "Video" rfl (by decide)⟩

/-! ## Cancel convergence (C1) -/

lemma downloadVideoRun_terminal (env : WorkerEnv) :
    isTerminal (downloadVideoRun env).status = true := by
  unfold downloadVideoRun
  cases h : resolveTitle env with
  | error e => rfl
  | ok t =>
    simp only
    split
    · rfl
    · split
      · rfl
      · split
        · rfl
        · split
          · rfl
          · rfl

/-- Claim C1: cancelling while a session is Running brings the session
back to Idle, and every item a worker was started for ends in one of the
terminal statuses Downloaded, Already Downloaded, Failed or Cancelled —
no item remains in a Downloading state after the cancel call returns. -/
theorem cancel_converges_to_idle (st : AppState) (envs : List WorkerEnv)
    (h : st.downloading = true) :
    (on_cancel_downloads st envs).downloading = false ∧
    ∀ s ∈ (on_cancel_downloads st envs).rowStatus, isTerminal s = true := by
  have heq : on_cancel_downloads st envs =
      { st with
        downloading := false
        cancelRequested := true
        rowStatus := envs.map (fun e => (downloadVideoRun e).status) } := by
    unfold on_cancel_downloads
    rw [h]
    rfl
  rw [heq]
  refine ⟨rfl, ?_⟩
  intro s hs
  simp only [List.mem_map] at hs
  obtain ⟨e, _, rfl⟩ := hs
  exact downloadVideoRun_terminal e

/-- Witness for C1: a running session with one worker whose process was
terminated after the cancellation flag was observed. -/
theorem cancel_converges_to_idle_witness :
    (⟨true, false, ["u"], [ItemStatus.progress "50.0"], "save", [], [0]⟩ : AppState).downloading = true ∧
    ((on_cancel_downloads ⟨true, false, ["u"], [ItemStatus.progress "50.0"], "save", [], [0]⟩
        [⟨"T", Except.error "e", false, "save", [], true, 1, false⟩]).downloading = false ∧
      ∀ s ∈ (on_cancel_downloads ⟨true, false, ["u"], [ItemStatus.progress "50.0"], "save", [], [0]⟩
        [⟨"T", Except.error "e", false, "save", [], true, 1, false⟩]).rowStatus,
          isTerminal s = true) :=
  ⟨rfl, cancel_converges_to_idle _ _ rfl⟩

/-! ## Session start pre-flight rejection (C2) -/

/-- Claim C2: a Download Videos invocation while a session is already
running, or with an empty queue, or whose save directory is missing and
cannot be created, is rejected with the corresponding session-level
error before any worker is spawned, and the whole state is unchanged —
no status changes, no new worker handles, the downloading flag keeps
its prior value. -/
theorem start_session_rejected_cleanly (st : AppState) (canCreate : Bool)
    (h : st.downloading = true ∨ st.videos = [] ∨
      (st.savePath ∉ st.fs ∧ canCreate = false)) :
    (on_download_videos st canCreate).2 = st ∧
    (on_download_videos st canCreate).1 ≠ none ∧
    (st.downloading = true →
      (on_download_videos st canCreate).1 = some StartError.alreadyRunning) ∧
    (st.downloading = false → st.videos = [] →
      (on_download_videos st canCreate).1 = some StartError.emptyQueue) ∧
    (st.downloading = false → st.videos ≠ [] → st.savePath ∉ st.fs → canCreate = false →
      (on_download_videos st canCreate).1 = some StartError.dirError) := by
  by_cases hd : st.downloading
  · simp [on_download_videos, hd]
  · rcases h with h1 | h2 | ⟨h3, h4⟩
    · exact absurd h1 hd
    · simp [on_download_videos, hd, h2]
    · by_cases he : st.videos = []
      · simp [on_download_videos, hd, he]
      · simp [on_download_videos, hd, he, h3, h4]

/-- Witness for C2: a state that is already downloading is rejected with
AlreadyRunningError and left untouched. -/
theorem start_session_rejected_cleanly_witness :
    ((⟨true, false, ["u"], [ItemStatus.ready], "save", ["save"], [0]⟩ : AppState).downloading = true ∨
      (⟨true, false, ["u"], [ItemStatus.ready], "save", ["save"], [0]⟩ : AppState).videos = [] ∨
      ((⟨true, false, ["u"], [ItemStatus.ready], "save", ["save"], [0]⟩ : AppState).savePath ∉
          (⟨true, false, ["u"], [ItemStatus.ready], "save", ["save"], [0]⟩ : AppState).fs ∧
        true = false)) ∧
    (on_download_videos ⟨true, false, ["u"], [ItemStatus.ready], "save", ["save"], [0]⟩ true).2 =
      ⟨true, false, ["u"], [ItemStatus.ready], "save", ["save"], [0]⟩ ∧
    (on_download_videos ⟨true, false, ["u"], [ItemStatus.ready], "save", ["save"], [0]⟩ true).1 =
      some StartError.alreadyRunning :=
  ⟨Or.inl rfl,
    (start_session_rejected_cleanly _ true (Or.inl rfl)).1,
    (start_session_rejected_cleanly _ true (Or.inl rfl)).2.2.1 rfl⟩

/-! ## Queue uniqueness (C6) -/

lemma is_url_in_queue_true (videos : List String) (url : String) :
    is_url_in_queue videos url = true ↔ url ∈ videos := by
  simp [is_url_in_queue]

/-- Claim C6: an add whose URL is exactly equal to the url of an item
already in the queue is rejected and the queue length does not increase;
consequently, starting from an empty queue, no sequence of adds ever
produces two items with the same URL. -/
theorem duplicate_url_rejected :
    (∀ (videos : List String) (url : String), url ∈ videos →
      addLink videos url = videos ∧ (addLink videos url).length = videos.length) ∧
    (∀ links : List String, (List.foldl addLink [] links).Nodup) := by
  have hrej : ∀ (videos : List String) (url : String), url ∈ videos →
      addLink videos url = videos := by
    intro videos url hmem
    unfold addLink
    have hq : is_url_in_queue videos url = true := (is_url_in_queue_true _ _).mpr hmem
    simp [hq]
  have hstep : ∀ (videos : List String) (url : String),
      videos.Nodup → (addLink videos url).Nodup := by
    intro videos url hnd
    unfold addLink
    split
    · split
      · rename_i hguard _
        have hnot : url ∉ videos := by
          intro hmem
          have hq := (is_url_in_queue_true videos url).mpr hmem
          simp [hq] at hguard
        simp [List.nodup_append, hnot, hnd]
      · exact hnd
    · exact hnd
  refine ⟨fun videos url hmem => ⟨hrej _ _ hmem, by rw [hrej _ _ hmem]⟩, ?_⟩
  intro links
  have hfold : ∀ (ls : List String) (acc : List String),
      acc.Nodup → (List.foldl addLink acc ls).Nodup := by
    intro ls
    induction ls with
    | nil => intro acc hacc; exact hacc
    | cons l rest ih => intro acc hacc; exact ih _ (hstep _ _ hacc)
  exact hfold links [] (by simp)

/-- Witness for C6: adding "u" to a queue already holding "u" leaves the
queue unchanged. -/
theorem duplicate_url_rejected_witness :
    "u" ∈ (["u"] : List String) ∧
    (addLink ["u"] "u" = ["u"] ∧ (addLink ["u"] "u").length = (["u"] : List String).length) :=
  ⟨by simp, duplicate_url_rejected.1 ["u"] "u" (by simp)⟩

/-! ## Batch summary tally (C4, corrected) -/

lemma tally_foldl (l : List ItemStatus) (acc : Nat × Nat)
    (hterm : ∀ s ∈ l, isTerminal s = true)
    (hnc : ∀ s ∈ l, s ≠ ItemStatus.cancelled) :
    List.foldl tallyStep acc l =
      (acc.1 + l.count ItemStatus.downloaded, acc.2 + l.count ItemStatus.failed) := by
  induction l generalizing acc with
  | nil => simp
  | cons s ls ih =>
    have hs := hterm s (by simp)
    have hns := hnc s (by simp)
    have hterm2 : ∀ x ∈ ls, isTerminal x = true := fun x hx => hterm x (by simp [hx])
    have hnc2 : ∀ x ∈ ls, x ≠ ItemStatus.cancelled := fun x hx => hnc x (by simp [hx])
    cases s with
    | downloaded =>
      rw [List.foldl_cons]
      have hst : tallyStep acc ItemStatus.downloaded = (acc.1 + 1, acc.2) := rfl
      rw [hst, ih _ hterm2 hnc2]
      simp [List.count_cons]
      omega
    | alreadyDownloaded =>
      rw [List.foldl_cons]
      have hst : tallyStep acc ItemStatus.alreadyDownloaded = acc := rfl
      rw [hst, ih _ hterm2 hnc2]
      simp [List.count_cons]
    | failed =>
      rw [List.foldl_cons]
      have hst : tallyStep acc ItemStatus.failed = (acc.1, acc.2 + 1) := rfl
      rw [hst, ih _ hterm2 hnc2]
      simp [List.count_cons]
      omega
    | cancelled => exact absurd rfl hns
    | empty => simp [isTerminal] at hs
    | ready => simp [isTerminal] at hs
    | metaError => simp [isTerminal] at hs
    | preparing => simp [isTerminal] at hs
    | progress pct => simp [isTerminal] at hs

/-- Claim C4 fails as stated on the code: a completed batch whose single
item is Already Downloaded is tallied as zero successes and zero
failures, while the claim counts it as one success (Downloaded or
AlreadyDownloaded). -/
theorem already_downloaded_uncounted_cex :
    tallyCounts [ItemStatus.alreadyDownloaded] = (0, 0) ∧
    claimedSuccessCount [ItemStatus.alreadyDownloaded] = 1 ∧
    (tallyCounts [ItemStatus.alreadyDownloaded]).1 ≠
      claimedSuccessCount [ItemStatus.alreadyDownloaded] := by
  decide

/-- Claim C4 (amended): when a session completes with every job in a
terminal status and without cancellation, the summary counts as
successful exactly the items whose terminal status is Downloaded — items
whose terminal status is Already Downloaded are counted in neither
tally — and counts as failed exactly the items whose terminal status is
Failed. -/
theorem tally_counts_amended (l : List ItemStatus)
    (hterm : ∀ s ∈ l, isTerminal s = true)
    (hnc : ∀ s ∈ l, s ≠ ItemStatus.cancelled) :
    tallyCounts l = (l.count ItemStatus.downloaded, l.count ItemStatus.failed) := by
  unfold tallyCounts
  rw [tally_foldl l (0, 0) hterm hnc]
  simp

/-- Witness for the amended C4 on a concrete terminal batch. -/
theorem tally_counts_amended_witness :
    (∀ s ∈ [ItemStatus.downloaded, ItemStatus.failed, ItemStatus.alreadyDownloaded],
      isTerminal s = true) ∧
    (∀ s ∈ [ItemStatus.downloaded, ItemStatus.failed, ItemStatus.alreadyDownloaded],
      s ≠ ItemStatus.cancelled) ∧
    tallyCounts [ItemStatus.downloaded, ItemStatus.failed, ItemStatus.alreadyDownloaded] = (1, 1) :=
  ⟨by decide, by decide,
    (tally_counts_amended _ (by decide) (by decide)).trans (by decide)⟩

/-! ## Queue reorder (C7, corrected) -/

lemma swapIdx_cons {α : Type} (x : α) (l : List α) (i j : Nat) :
    swapIdx (x :: l) (i + 1) (j + 1) = x :: swapIdx l i j := by
  simp only [swapIdx, List.getElem?_cons_succ]
  cases h1 : l[i]? <;> cases h2 : l[j]? <;> simp [h1, h2]

lemma swapIdx_decomp_up {α : Type} (pre : List α) (a b : α) (suf : List α) :
    swapIdx (pre ++ a :: b :: suf) (pre.length + 1) pre.length = pre ++ b :: a :: suf := by
  induction pre with
  | nil => rfl
  | cons x rest ih =>
    simp only [List.cons_append, List.length_cons]
    have e : rest.length + 1 + 1 = rest.length + 1 + 1 := rfl
    rw [swapIdx_cons x _ (rest.length + 1) rest.length, ih]

lemma swapIdx_decomp_down {α : Type} (pre : List α) (a b : α) (suf : List α) :
    swapIdx (pre ++ a :: b :: suf) pre.length (pre.length + 1) = pre ++ b :: a :: suf := by
  induction pre with
  | nil => rfl
  | cons x rest ih =>
    simp only [List.cons_append, List.length_cons]
    rw [swapIdx_cons x _ rest.length (rest.length + 1), ih]

lemma moveUpRows_cons (x : RowData) (l : List RowData) (k : Nat) :
    moveUpRows (x :: l) (k + 2) = x :: moveUpRows l (k + 1) := by
  simp only [moveUpRows, show k + 2 - 1 = k + 1 from rfl,
    show k + 1 - 1 = k from rfl, List.getElem?_cons_succ]
  cases h1 : l[k]? <;> cases h2 : l[k + 1]? <;> simp [h1, h2]

lemma moveUpRows_decomp (pre : List RowData) (a b : RowData) (suf : List RowData) :
    moveUpRows (pre ++ a :: b :: suf) (pre.length + 1) =
      pre ++ rowReceiving a b :: rowReceiving b a :: suf := by
  induction pre with
  | nil => rfl
  | cons x rest ih =>
    simp only [List.cons_append, List.length_cons]
    rw [show rest.length + 1 + 1 = rest.length + 2 from rfl, moveUpRows_cons, ih]

lemma moveDownRows_cons (x : RowData) (l : List RowData) (k : Nat) :
    moveDownRows (x :: l) (k + 1) = x :: moveDownRows l k := by
  simp only [moveDownRows, List.getElem?_cons_succ]
  cases h1 : l[k]? <;> cases h2 : l[k + 1]? <;> simp [h1, h2]

lemma moveDownRows_decomp (pre : List RowData) (a b : RowData) (suf : List RowData) :
    moveDownRows (pre ++ a :: b :: suf) pre.length =
      pre ++ rowReceiving a b :: rowReceiving b a :: suf := by
  induction pre with
  | nil => rfl
  | cons x rest ih =>
    simp only [List.cons_append, List.length_cons]
    rw [moveDownRows_cons, ih]

/-- Claim C7 fails as stated on the code: moving the second of two queue
items up swaps title, duration, status and colour, but not the column-0
thumbnail image — after the move, row 0 shows the title of item B
together with the thumbnail of item A. -/
theorem move_up_thumbnail_cex :
    ((move_item_up
        ⟨[⟨"uA", "A", 1, "", "", "Ready"⟩, ⟨"uB", "B", 2, "", "", "Ready"⟩],
          [⟨10, "A", "1:00", "Ready", 1⟩, ⟨20, "B", "2:00", "Ready", 2⟩]⟩ 1).rows.getD 0
        ⟨0, "", "", "", 0⟩).title = "B" ∧
    ((move_item_up
        ⟨[⟨"uA", "A", 1, "", "", "Ready"⟩, ⟨"uB", "B", 2, "", "", "Ready"⟩],
          [⟨10, "A", "1:00", "Ready", 1⟩, ⟨20, "B", "2:00", "Ready", 2⟩]⟩ 1).rows.getD 0
        ⟨0, "", "", "", 0⟩).thumb = 10 ∧
    (10 : Nat) ≠ 20 := by
  decide

/-- Claim C7 (amended): moveUp at position i with i greater than 0 and
moveDown at position i with i less than n-1 swap the two adjacent queue
records wholesale and swap the title, duration, status and background
colour of the two list rows; the displayed column-0 thumbnail image of
each row does not move — each row position keeps its image; at the
boundaries (moveUp at 0, moveDown at n-1) the operation is a no-op. -/
theorem move_swaps_fields_amended
    (vpre : List VideoRec) (va vb : VideoRec) (vsuf : List VideoRec)
    (pre : List RowData) (ra rb : RowData) (suf : List RowData)
    (hlen : vpre.length = pre.length) :
    move_item_up ⟨vpre ++ va :: vb :: vsuf, pre ++ ra :: rb :: suf⟩ (pre.length + 1) =
      ⟨vpre ++ vb :: va :: vsuf, pre ++ rowReceiving ra rb :: rowReceiving rb ra :: suf⟩ ∧
    move_item_down ⟨vpre ++ va :: vb :: vsuf, pre ++ ra :: rb :: suf⟩ pre.length =
      ⟨vpre ++ vb :: va :: vsuf, pre ++ rowReceiving ra rb :: rowReceiving rb ra :: suf⟩ ∧
    (rowReceiving ra rb).title = rb.title ∧
    (rowReceiving ra rb).duration = rb.duration ∧
    (rowReceiving ra rb).status = rb.status ∧
    (rowReceiving ra rb).bgcolor = rb.bgcolor ∧
    (rowReceiving ra rb).thumb = ra.thumb ∧
    (∀ st : QueueState, move_item_up st 0 = st) ∧
    (∀ st : QueueState, move_item_down st (st.rows.length - 1) = st) := by
  refine ⟨?_, ?_, rfl, rfl, rfl, rfl, rfl, ?_, ?_⟩
  · unfold move_item_up
    have hc : 0 < pre.length + 1 ∧
        pre.length + 1 < (⟨vpre ++ va :: vb :: vsuf, pre ++ ra :: rb :: suf⟩ :
          QueueState).rows.length := by
      constructor
      · omega
      · simp
    rw [if_pos hc]
    simp only [QueueState.mk.injEq]
    constructor
    · rw [show pre.length + 1 - 1 = pre.length from rfl, ← hlen]
      exact swapIdx_decomp_up vpre va vb vsuf
    · exact moveUpRows_decomp pre ra rb suf
  · unfold move_item_down
    have hc : pre.length + 1 < (⟨vpre ++ va :: vb :: vsuf, pre ++ ra :: rb :: suf⟩ :
        QueueState).rows.length := by
      simp
    rw [if_pos hc]
    simp only [QueueState.mk.injEq]
    constructor
    · rw [← hlen]
      exact swapIdx_decomp_down vpre va vb vsuf
    · exact moveDownRows_decomp pre ra rb suf
  · intro st
    unfold move_item_up
    rw [if_neg]
    simp
  · intro st
    unfold move_item_down
    rw [if_neg]
    omega

/-- Witness for the amended C7 on a concrete two-item queue. -/
theorem move_swaps_fields_amended_witness :
    ([] : List VideoRec).length = ([] : List RowData).length ∧
    move_item_up
        ⟨[⟨"uA", "A", 1, "", "", "Ready"⟩, ⟨"uB", "B", 2, "", "", "Ready"⟩],
          [⟨10, "A", "1:00", "Ready", 1⟩, ⟨20, "B", "2:00", "Ready", 2⟩]⟩ 1 =
      ⟨[⟨"uB", "B", 2, "", "", "Ready"⟩, ⟨"uA", "A", 1, "", "", "Ready"⟩],
        [rowReceiving ⟨10, "A", "1:00", "Ready", 1⟩ ⟨20, "B", "2:00", "Ready", 2⟩,
          rowReceiving ⟨20, "B", "2:00", "Ready", 2⟩ ⟨10, "A", "1:00", "Ready", 1⟩]⟩ :=
  ⟨rfl,
    (move_swaps_fields_amended [] ⟨"uA", "A", 1, "", "", "Ready"⟩ ⟨"uB", "B", 2, "", "", "Ready"⟩ []
      [] ⟨10, "A", "1:00", "Ready", 1⟩ ⟨20, "B", "2:00", "Ready", 2⟩ [] rfl).1⟩

/-! ## URL validation semantics (C10) -/

lemma isPrefixOf_append (p q s : List Char) :
    (p ++ q).isPrefixOf s = (p.isPrefixOf s && q.isPrefixOf (s.drop p.length)) := by
  induction p generalizing s with
  | nil => simp
  | cons c p ih =>
    cases s with
    | nil => simp [List.isPrefixOf]
    | cons d s =>
      simp only [List.cons_append, List.isPrefixOf, List.length_cons, List.drop_succ_cons,
        List.append_eq, ih, Bool.and_assoc]

/-- Claim C10: is_valid_link accepts exactly the strings that begin with
http:// or https://, optionally followed by www., immediately followed
by one of the seven platform prefixes, with the remainder of the string
unconstrained; in particular, no host-boundary or domain check is
performed, and the unrelated host https://youtube.evil.example/x is
accepted. -/
theorem is_valid_link_prefix_semantics :
    (∀ s : String, is_valid_link s = true ↔
      ∃ sch ∈ (["http://", "https://"] : List String),
        ∃ w ∈ (["", "www."] : List String),
          ∃ p ∈ (["youtube", "youtu.be", "vimeo", "dailymotion", "facebook",
                   "twitter", "instagram"] : List String),
            (sch.data ++ (w.data ++ p.data)).isPrefixOf s.data = true) ∧
    is_valid_link "https://youtube.evil.example/x" = true := by
  constructor
  · intro s
    constructor
    · intro h
      simp only [is_valid_link, matchHost, matchPlatform, List.any_eq_true,
        Bool.or_eq_true, Bool.and_eq_true] at h
      rcases h with ⟨hsch, hhost⟩ | ⟨hsch, hhost⟩
      · rcases hhost with ⟨hw, p, hp, hpre⟩ | ⟨p, hp, hpre⟩
        · refine ⟨"https://", by simp, "www.", by simp, p, hp, ?_⟩
          rw [isPrefixOf_append, isPrefixOf_append]
          simp only [Bool.and_eq_true]
          exact ⟨hsch, hw, hpre⟩
        · refine ⟨"https://", by simp, "", by simp, p, hp, ?_⟩
          rw [isPrefixOf_append, isPrefixOf_append]
          simp only [Bool.and_eq_true]
          exact ⟨hsch, by simp, hpre⟩
      · rcases hhost with ⟨hw, p, hp, hpre⟩ | ⟨p, hp, hpre⟩
        · refine ⟨"http://", by simp, "www.", by simp, p, hp, ?_⟩
          rw [isPrefixOf_append, isPrefixOf_append]
          simp only [Bool.and_eq_true]
          exact ⟨hsch, hw, hpre⟩
        · refine ⟨"http://", by simp, "", by simp, p, hp, ?_⟩
          rw [isPrefixOf_append, isPrefixOf_append]
          simp only [Bool.and_eq_true]
          exact ⟨hsch, by simp, hpre⟩
    · rintro ⟨sch, hsch, w, hw, p, hp, hpre⟩
      simp only [List.mem_cons, List.not_mem_nil, or_false] at hsch hw
      rw [isPrefixOf_append, isPrefixOf_append] at hpre
      simp only [Bool.and_eq_true] at hpre
      obtain ⟨h1, h2, h3⟩ := hpre
      simp only [is_valid_link, matchHost, matchPlatform, List.any_eq_true,
        Bool.or_eq_true, Bool.and_eq_true]
      rcases hsch with rfl | rfl <;> rcases hw with rfl | rfl
      · exact Or.inr ⟨h1, Or.inr ⟨p, hp, h3⟩⟩
      · exact Or.inr ⟨h1, Or.inl ⟨h2, p, hp, h3⟩⟩
      · exact Or.inl ⟨h1, Or.inr ⟨p, hp, h3⟩⟩
      · exact Or.inl ⟨h1, Or.inl ⟨h2, p, hp, h3⟩⟩
  · decide
